import Mathlib

/-!
Verification development for the mock pension GraphQL service
(`mock-pension-api/src/schema.ts` and its DataLoader module `loaders.ts`).

Conventions of the embedding:
* A `Key` (an account id) is represented by its byte sequence: in the source,
  cursors are computed by `Buffer.from(acc.id).toString('base64')`, and
  `Buffer.from` on a string is exactly its UTF-8 byte sequence.  We therefore
  model ids as `List Nat` with every byte `< 256` and cursors as the base64
  rendering of those bytes (standard alphabet with `=` padding, as produced by
  Node's `Buffer.toString('base64')`).
* JavaScript truthiness of the optional GraphQL arguments is modelled
  explicitly: an absent (`undefined`) string argument and the empty string are
  both falsy; the numbers `first`/`last` are falsy exactly when `0`.
* Monetary values (JS `number`) are modelled as rationals `ℚ`; the claims
  settled here depend only on order comparisons and exact subtraction.
* `Math.random`-generated transaction ids and `new Date()` timestamps are
  passed in as explicit parameters (`freshId`, `date`).
-/

namespace Pension

/-! ## Cursor encoding (base64, as produced by `Buffer.toString('base64')`) -/

/-- A key (account id) as its UTF-8 byte sequence (`Buffer.from(id)`). -/
abbrev Key := List Nat

/-- All bytes of a buffer are genuine bytes. -/
def ValidBytes (k : Key) : Prop := ∀ b ∈ k, b < 256

instance : DecidablePred ValidBytes := fun k =>
  inferInstanceAs (Decidable (∀ b ∈ k, b < 256))

/-- The standard base64 alphabet: sextet value to character. -/
def sextetChar (n : Nat) : Char :=
  if n < 26 then Char.ofNat (65 + n)
  else if n < 52 then Char.ofNat (97 + (n - 26))
  else if n < 62 then Char.ofNat (48 + (n - 52))
  else if n = 62 then '+'
  else '/'

/-- Inverse of the base64 alphabet: character to sextet value, if any. -/
def charSextet (c : Char) : Option Nat :=
  let n := c.toNat
  if 65 ≤ n ∧ n ≤ 90 then some (n - 65)
  else if 97 ≤ n ∧ n ≤ 122 then some (n - 97 + 26)
  else if 48 ≤ n ∧ n ≤ 57 then some (n - 48 + 52)
  else if n = 43 then some 62
  else if n = 47 then some 63
  else none

/-- Base64-encode a byte list, 3 bytes to 4 characters, `=`-padded. -/
def b64Chunks : List Nat → List Char
  | [] => []
  | [a] => [sextetChar (a / 4), sextetChar (a % 4 * 16), '=', '=']
  | [a, b] => [sextetChar (a / 4), sextetChar (a % 4 * 16 + b / 16),
               sextetChar (b % 16 * 4), '=']
  | a :: b :: c :: rest =>
      sextetChar (a / 4) :: sextetChar (a % 4 * 16 + b / 16) ::
      sextetChar (b % 16 * 4 + c / 64) :: sextetChar (c % 64) :: b64Chunks rest

/-- `Buffer.from(bytes).toString('base64')`. -/
def base64Encode (k : Key) : String := String.mk (b64Chunks k)

/-- Modelled from the spec: the decoding direction of the opaque cursor
(`decode(encode(k)) == k`).  The source only ever encodes (`schema.ts` matches
cursors by re-encoding each element); this is standard base64 decoding, the
inverse used by Node's `Buffer.from(s, 'base64')`. -/
def b64DecodeChunks : List Char → Option (List Nat)
  | [] => some []
  | c1 :: c2 :: c3 :: c4 :: rest =>
      if c3 = '=' ∧ c4 = '=' ∧ rest = [] then do
        let s1 ← charSextet c1
        let s2 ← charSextet c2
        some [s1 * 4 + s2 / 16]
      else if c4 = '=' ∧ rest = [] then do
        let s1 ← charSextet c1
        let s2 ← charSextet c2
        let s3 ← charSextet c3
        some [s1 * 4 + s2 / 16, s2 % 16 * 16 + s3 / 4]
      else do
        let s1 ← charSextet c1
        let s2 ← charSextet c2
        let s3 ← charSextet c3
        let s4 ← charSextet c4
        let tail ← b64DecodeChunks rest
        some ((s1 * 4 + s2 / 16) :: (s2 % 16 * 16 + s3 / 4) :: (s3 % 4 * 64 + s4) :: tail)
  | _ => none

/-- Modelled from the spec: cursor decoding at the string level. -/
def base64Decode (s : String) : Option (List Nat) := b64DecodeChunks s.data

/-- The base64 alphabet is inverted exactly by `charSextet` on `0..63`. -/
theorem charSextet_sextetChar : ∀ n < 64, charSextet (sextetChar n) = some n := by
  decide

/-- `'='` is not in the base64 alphabet, so encoded sextets never read as padding. -/
theorem sextetChar_ne_pad (n : Nat) (hn : n < 64) : sextetChar n ≠ '=' := by
  intro h
  have h1 := charSextet_sextetChar n hn
  rw [h] at h1
  simp [charSextet] at h1

/-- Decoding inverts encoding chunkwise on genuine byte lists. -/
theorem b64DecodeChunks_b64Chunks (k : List Nat) (hk : ∀ b ∈ k, b < 256) :
    b64DecodeChunks (b64Chunks k) = some k := by
  induction k using b64Chunks.induct with
  | case1 => rfl
  | case2 a =>
    have ha : a < 256 := hk a (by simp)
    have h1 := charSextet_sextetChar (a / 4) (by omega)
    have h2 := charSextet_sextetChar (a % 4 * 16) (by omega)
    simp [b64Chunks, b64DecodeChunks, h1, h2, List.cons.injEq]
    omega
  | case3 a b =>
    have ha : a < 256 := hk a (by simp)
    have hb : b < 256 := hk b (by simp)
    have h1 := charSextet_sextetChar (a / 4) (by omega)
    have h2 := charSextet_sextetChar (a % 4 * 16 + b / 16) (by omega)
    have h3 := charSextet_sextetChar (b % 16 * 4) (by omega)
    have hp : sextetChar (b % 16 * 4) ≠ '=' := sextetChar_ne_pad _ (by omega)
    simp [b64Chunks, b64DecodeChunks, h1, h2, h3, hp, List.cons.injEq]
    omega
  | case4 a b c rest ih =>
    have ha : a < 256 := hk a (by simp)
    have hb : b < 256 := hk b (by simp)
    have hc : c < 256 := hk c (by simp)
    have hrest : ∀ x ∈ rest, x < 256 := fun x hx => hk x (by simp [hx])
    have h1 := charSextet_sextetChar (a / 4) (by omega)
    have h2 := charSextet_sextetChar (a % 4 * 16 + b / 16) (by omega)
    have h3 := charSextet_sextetChar (b % 16 * 4 + c / 64) (by omega)
    have h4 := charSextet_sextetChar (c % 64) (by omega)
    have hp : sextetChar (c % 64) ≠ '=' := sextetChar_ne_pad _ (by omega)
    simp [b64Chunks, b64DecodeChunks, h1, h2, h3, h4, hp, ih hrest,
      List.cons.injEq]
    omega

/-- String-level round trip of the cursor encoding. -/
theorem base64Decode_base64Encode (k : Key) (hk : ValidBytes k) :
    base64Decode (base64Encode k) = some k :=
  b64DecodeChunks_b64Chunks k hk

/-- The cursor encoding never collides on genuine byte lists. -/
theorem base64Encode_injective (k1 k2 : Key) (h1 : ValidBytes k1)
    (h2 : ValidBytes k2) (he : base64Encode k1 = base64Encode k2) : k1 = k2 := by
  have e1 := base64Decode_base64Encode k1 h1
  have e2 := base64Decode_base64Encode k2 h2
  rw [he, e2] at e1
  exact (Option.some.injEq _ _ ▸ e1.symm)

/-! ## Data model (`schema.ts`, interfaces and mock store) -/

inductive PensionStatus where
  | ACTIVE | FROZEN | WITHDRAWN
deriving DecidableEq

inductive TransactionStatus where
  | PENDING | APPROVED | REJECTED | COMPLETED
deriving DecidableEq

structure Transaction where
  id : String
  amount : ℚ
  date : String
  status : TransactionStatus
deriving DecidableEq

structure BeneficiaryInfo where
  id : String
  name : String
  relationship : String
  percentage : ℚ
  contactNumber : String
deriving DecidableEq

structure PensionAccount where
  id : Key
  accountNumber : String
  balance : ℚ
  ownerName : String
  status : PensionStatus
  eligibleForWithdrawal : Bool
  withdrawalHistory : List Transaction
  beneficiaries : List BeneficiaryInfo
deriving DecidableEq

structure PensionRules where
  minimumAge : Nat
  maximumWithdrawalPercentage : ℚ
  taxFreeAmount : ℚ
deriving DecidableEq

structure Database where
  accounts : List PensionAccount
  rules : PensionRules
deriving DecidableEq

/-- The first shipped account (`id: '1'`, bytes `[49]`). -/
def account1 : PensionAccount :=
  { id := [49]
    accountNumber := "PENS001"
    balance := 50000
    ownerName := "张三"
    status := .ACTIVE
    eligibleForWithdrawal := true
    withdrawalHistory :=
      [ { id := "TXN001", amount := 5000, date := "2024-01-15T10:00:00Z",
          status := .COMPLETED } ]
    beneficiaries :=
      [ { id := "BEN001", name := "张小明", relationship := "子女",
          percentage := 60, contactNumber := "13800138001" },
        { id := "BEN002", name := "李娟", relationship := "配偶",
          percentage := 40, contactNumber := "13800138002" } ] }

/-- The second shipped account (`id: '2'`, bytes `[50]`). -/
def account2 : PensionAccount :=
  { id := [50]
    accountNumber := "PENS002"
    balance := 75000
    ownerName := "李四"
    status := .ACTIVE
    eligibleForWithdrawal := false
    withdrawalHistory := []
    beneficiaries :=
      [ { id := "BEN003", name := "李明", relationship := "子女",
          percentage := 100, contactNumber := "13800138003" } ] }

/-- The mock data store `db` of `schema.ts` (ids as UTF-8 bytes: `"1" = [49]`,
`"2" = [50]`). -/
def dbInit : Database :=
  { accounts := [account1, account2]
    rules :=
      { minimumAge := 55
        maximumWithdrawalPercentage := 25
        taxFreeAmount := 25000 } }

/-! ## Cursor pagination (`Query.paginatedAccounts`) -/

/-- The cursor of an account id: `Buffer.from(acc.id).toString('base64')`. -/
def cursorOf (k : Key) : String := base64Encode k

structure PageArgs where
  first : Option Nat := none
  after : Option String := none
  last : Option Nat := none
  before : Option String := none

structure Edge where
  cursor : String
  node : PensionAccount
deriving DecidableEq

structure PageInfo where
  hasNextPage : Bool
  hasPreviousPage : Bool
  startCursor : Option String
  endCursor : Option String
deriving DecidableEq

structure Connection where
  edges : List Edge
  pageInfo : PageInfo
  totalCount : Nat
deriving DecidableEq

/-- JS truthiness of a `string | undefined` value: `undefined` and `""` are
falsy. -/
def truthyStr : Option String → Bool
  | none => false
  | some s => s != ""

/-- `accounts.slice(index + 1)` after `findIndex` on the `after` cursor:
`findIndex` returns `-1` when unmatched, and `slice(0)` is the whole array. -/
def afterSlice (l : List PensionAccount) (c : String) : List PensionAccount :=
  match l.findIdx? (fun a => cursorOf a.id == c) with
  | some i => l.drop (i + 1)
  | none => l

/-- `accounts.slice(0, index)` after `findIndex` on the `before` cursor:
when unmatched, `slice(0, -1)` drops the last element. -/
def beforeSlice (l : List PensionAccount) (c : String) : List PensionAccount :=
  match l.findIdx? (fun a => cursorOf a.id == c) with
  | some i => l.take i
  | none => l.dropLast

/-- `accounts.slice(-last)`: the last `n` elements (the whole array when
`n` is at least the length). -/
def lastSlice (l : List PensionAccount) (n : Nat) : List PensionAccount :=
  l.drop (l.length - n)

/-- The `Query.paginatedAccounts` resolver (`schema.ts` lines 301–345).
`first` defaults to `10` when absent; every `if` mirrors JS truthiness. -/
def paginatedAccounts (db : Database) (args : PageArgs) : Connection :=
  let first := args.first.getD 10
  let a0 := db.accounts
  let a1 := if truthyStr args.after then afterSlice a0 (args.after.getD "") else a0
  let hasPrevAfter := truthyStr args.after
  let a2 := if truthyStr args.before then beforeSlice a1 (args.before.getD "") else a1
  let hasNextPage := if first ≠ 0 then decide (first < a2.length) else false
  let a3 := if first ≠ 0 then a2.take first else a2
  let lastActive := args.last.getD 0 != 0
  let a4 := if lastActive then lastSlice a3 (args.last.getD 0) else a3
  let edges := a4.map (fun a => { cursor := cursorOf a.id, node := a })
  { edges := edges
    pageInfo :=
      { hasNextPage := hasNextPage
        hasPreviousPage := hasPrevAfter || lastActive
        startCursor := edges.head?.map (·.cursor)
        endCursor := edges.getLast?.map (·.cursor) }
    totalCount := db.accounts.length }

/-! ## Events, withdrawal mutation (`Mutation.requestWithdrawal`) -/

def WITHDRAWAL_STATUS_CHANGED : String := "WITHDRAWAL_STATUS_CHANGED"
def ACCOUNT_BALANCE_CHANGED : String := "ACCOUNT_BALANCE_CHANGED"

inductive Payload where
  | withdrawalStatus (t : Transaction) (accountId : Key)
  | balanceChanged (account : PensionAccount) (accountId : Key)
deriving DecidableEq

structure Event where
  topic : String
  payload : Payload
deriving DecidableEq

structure WithdrawalResult where
  success : Bool
  message : String
  transaction : Option Transaction
deriving DecidableEq

/-- A mutation's caller-visible result, the store it leaves behind, and the
events it published (in publish order). -/
structure MutationOutcome where
  result : WithdrawalResult
  db : Database
  events : List Event
deriving DecidableEq

/-- JS mutates the object returned by `accounts.find(...)` in place: update the
first account matching `aid`, leave the rest untouched. -/
def updateFirst (l : List PensionAccount) (aid : Key)
    (f : PensionAccount → PensionAccount) : List PensionAccount :=
  match l with
  | [] => []
  | a :: rest => if a.id == aid then f a :: rest else a :: updateFirst rest aid f

/-- The `Mutation.requestWithdrawal` resolver (`schema.ts` lines 397–458).
The random transaction id and the current date are passed in as `freshId` and
`date`. -/
def requestWithdrawal (db : Database) (accountId : Key) (amount : ℚ)
    (freshId date : String) : MutationOutcome :=
  match db.accounts.find? (fun a => a.id == accountId) with
  | none => ⟨⟨false, "账户未找到", none⟩, db, []⟩
  | some account =>
    if !account.eligibleForWithdrawal then
      ⟨⟨false, "账户不符合提取条件", none⟩, db, []⟩
    else if amount > account.balance then
      ⟨⟨false, "余额不足", none⟩, db, []⟩
    else
      let maxAmount := account.balance * (db.rules.maximumWithdrawalPercentage / 100)
      if amount > maxAmount then
        ⟨⟨false, "提取金额不能超过账户余额的" ++
            toString db.rules.maximumWithdrawalPercentage ++ "%", none⟩, db, []⟩
      else
        let txn : Transaction :=
          { id := freshId, amount := amount, date := date, status := .PENDING }
        let account' := { account with
          withdrawalHistory := account.withdrawalHistory ++ [txn]
          balance := account.balance - amount }
        ⟨⟨true, "提取申请已提交", some txn⟩,
         { db with accounts := updateFirst db.accounts accountId (fun a =>
             { a with withdrawalHistory := a.withdrawalHistory ++ [txn]
                      balance := a.balance - amount }) },
         [⟨WITHDRAWAL_STATUS_CHANGED, .withdrawalStatus txn accountId⟩,
          ⟨ACCOUNT_BALANCE_CHANGED, .balanceChanged account' accountId⟩]⟩

/-- The `Mutation.updateAccountStatus` resolver: throws when the account is
absent (modelled as `none` with the store unchanged). -/
def updateAccountStatus (db : Database) (accountId : Key)
    (status : PensionStatus) : Option PensionAccount × Database :=
  match db.accounts.find? (fun a => a.id == accountId) with
  | none => (none, db)
  | some account =>
    (some { account with status := status },
     { db with accounts := updateFirst db.accounts accountId (fun a =>
         { a with status := status }) })

/-- The `Mutation.addBeneficiary` resolver: throws when the account is absent
or the percentages would exceed 100 (modelled as `none`, store unchanged). -/
def addBeneficiary (db : Database) (accountId : Key)
    (name relationship : String) (percentage : ℚ) (contactNumber : String)
    (freshId : String) : Option BeneficiaryInfo × Database :=
  match db.accounts.find? (fun a => a.id == accountId) with
  | none => (none, db)
  | some account =>
    let currentTotal := account.beneficiaries.foldl (fun s b => s + b.percentage) 0
    if currentTotal + percentage > 100 then (none, db)
    else
      let ben : BeneficiaryInfo :=
        { id := freshId, name := name, relationship := relationship
          percentage := percentage, contactNumber := contactNumber }
      (some ben,
       { db with accounts := updateFirst db.accounts accountId (fun a =>
           { a with beneficiaries := a.beneficiaries ++ [ben] }) })

/-- The store states the running program can be in: the initial mock store,
evolved by the three mutations of `schema.ts` (queries never mutate `db`). -/
inductive Reachable : Database → Prop where
  | init : Reachable dbInit
  | withdraw (db accountId amount freshId date) :
      Reachable db →
      Reachable (requestWithdrawal db accountId amount freshId date).db
  | setStatus (db accountId status) :
      Reachable db → Reachable (updateAccountStatus db accountId status).2
  | addBen (db accountId name relationship percentage contactNumber freshId) :
      Reachable db →
      Reachable (addBeneficiary db accountId name relationship percentage
        contactNumber freshId).2

/-- Invariant of every reachable store: balances are non-negative and the
withdrawal-percentage rule is non-negative. -/
def GoodStore (db : Database) : Prop :=
  (∀ a ∈ db.accounts, 0 ≤ a.balance) ∧ 0 ≤ db.rules.maximumWithdrawalPercentage

/-- Members of `updateFirst l aid f` are old members, except the found account
(the first match of `find?`), which is updated by `f`. -/
theorem mem_updateFirst (l : List PensionAccount) (aid : Key)
    (f : PensionAccount → PensionAccount) (acc : PensionAccount)
    (hfind : l.find? (fun a => a.id == aid) = some acc) :
    ∀ x ∈ updateFirst l aid f, x ∈ l ∨ x = f acc := by
  induction l with
  | nil => simp [updateFirst]
  | cons a rest ih =>
    by_cases ha : (a.id == aid) = true
    · rw [List.find?_cons_of_pos (p := fun x => x.id == aid) rest ha] at hfind
      cases hfind
      intro x hx
      rw [updateFirst, if_pos ha] at hx
      rcases List.mem_cons.mp hx with h | h
      · exact Or.inr h
      · exact Or.inl (List.mem_cons_of_mem _ h)
    · rw [List.find?_cons_of_neg (p := fun x => x.id == aid) rest ha] at hfind
      intro x hx
      rw [updateFirst, if_neg ha] at hx
      rcases List.mem_cons.mp hx with h | h
      · exact Or.inl (h ▸ List.mem_cons_self _ _)
      · rcases ih hfind x h with h' | h'
        · exact Or.inl (List.mem_cons_of_mem _ h')
        · exact Or.inr h'

/-- The shipped mock store satisfies the invariant. -/
theorem goodStore_dbInit : GoodStore dbInit := by
  constructor
  · intro a ha
    simp only [dbInit, List.mem_cons, List.not_mem_nil, or_false] at ha
    rcases ha with rfl | rfl <;> norm_num [account1, account2]
  · norm_num [dbInit]

/-- Every reachable store has non-negative balances and rules. -/
theorem reachable_goodStore : ∀ db, Reachable db → GoodStore db := by
  intro db h
  induction h with
  | init => exact goodStore_dbInit
  | withdraw db aid amount fid date hr ih =>
    rcases hfind : db.accounts.find? (fun a => a.id == aid) with _ | account
    · simpa only [requestWithdrawal, hfind] using ih
    · simp only [requestWithdrawal, hfind]
      split_ifs with h1 h2 h3
      · exact ih
      · exact ih
      · exact ih
      · constructor
        · intro x hx
          rcases mem_updateFirst _ _ _ _ hfind x hx with hm | hm
          · exact ih.1 x hm
          · subst hm
            have hle : amount ≤ account.balance := not_lt.mp h2
            have := ih.1 account (List.mem_of_find?_eq_some hfind)
            simp only
            linarith
        · exact ih.2
  | setStatus db aid st hr ih =>
    rcases hfind : db.accounts.find? (fun a => a.id == aid) with _ | account
    · simpa only [updateAccountStatus, hfind] using ih
    · simp only [updateAccountStatus, hfind]
      refine ⟨fun x hx => ?_, ih.2⟩
      rcases mem_updateFirst _ _ _ _ hfind x hx with hm | hm
      · exact ih.1 x hm
      · subst hm
        exact ih.1 account (List.mem_of_find?_eq_some hfind)
  | addBen db aid name rel pct contact fid hr ih =>
    rcases hfind : db.accounts.find? (fun a => a.id == aid) with _ | account
    · simpa only [addBeneficiary, hfind] using ih
    · simp only [addBeneficiary, hfind]
      split_ifs with h1
      · exact ih
      · refine ⟨fun x hx => ?_, ih.2⟩
        rcases mem_updateFirst _ _ _ _ hfind x hx with hm | hm
        · exact ih.1 x hm
        · subst hm
          exact ih.1 account (List.mem_of_find?_eq_some hfind)

/-! ## Batch Loader (machinery modelled from the spec, batch functions from
`loaders.ts`) -/

namespace Loader

/-- Modelled from the spec: the DataLoader batching/caching machinery (the
`dataloader` package is an external library, missing from the repository's
source).  Per §4.1 a loader holds a key→result cache, the pending Batch
Request of the current flush window, and we log every batch-fetch invocation
to reason about how often the fetch function runs. -/
structure State (K V : Type) where
  cache : List (K × V)
  pending : List K
  calls : List (List K)
deriving DecidableEq

/-- A freshly constructed loader: empty cache, empty batch, no fetches yet. -/
def fresh {K V : Type} : State K V := ⟨[], [], []⟩

/-- A result handle: resolved from cache, or pending at a batch position. -/
inductive Handle (V : Type) where
  | cached (v : V)
  | pendingAt (i : Nat)
deriving DecidableEq

/-- First-match association lookup in the loader cache. -/
def lookup {K V : Type} [BEq K] : List (K × V) → K → Option V
  | [], _ => none
  | (k, v) :: rest, k' => if k == k' then some v else lookup rest k'

/-- Modelled from the spec: `load(key)` registers the key in the current Batch
Request and returns a pending handle immediately — unless the loader-local
cache already holds the key, in which case the cached result is returned
without touching the batch. -/
def load {K V : Type} [BEq K] (s : State K V) (k : K) : Handle V × State K V :=
  match lookup s.cache k with
  | some v => (.cached v, s)
  | none => (.pendingAt s.pending.length, { s with pending := s.pending ++ [k] })

/-- Modelled from the spec: `loadMany(keys)` issues `load` per key in order. -/
def loadMany {K V : Type} [BEq K] (s : State K V) (ks : List K) :
    List (Handle V) × State K V :=
  match ks with
  | [] => ([], s)
  | k :: rest =>
    let p1 := load s k
    let p2 := loadMany p1.2 rest
    (p1.1 :: p2.1, p2.2)

/-- Modelled from the spec: on flush the loader invokes the batch-fetch
function once with the full, order-preserving pending key list (duplicates at
their original positions); results populate the cache positionally and the
Batch Request is cleared.  An empty batch never triggers a fetch. -/
def flush {K V : Type} (batchFn : List K → List V) (s : State K V) :
    List V × State K V :=
  if s.pending.isEmpty then ([], s)
  else
    let rs := batchFn s.pending
    (rs, { cache := s.cache ++ s.pending.zip rs, pending := [],
           calls := s.calls ++ [s.pending] })

/-- Resolve a handle against the result list of the flush that settled it. -/
def resolve {V : Type} (rs : List V) : Handle V → Option V
  | .cached v => some v
  | .pendingAt i => rs.get? i

end Loader

/-- The batch function of `createAccountLoader` (`loaders.ts` lines 24–27):
one `db.accounts.find` per requested id, in request order. -/
def accountBatchFn (db : Database) (accountIds : List Key) :
    List (Option PensionAccount) :=
  accountIds.map (fun id => db.accounts.find? (fun acc => acc.id == id))

/-- The batch function of `createBeneficiaryLoader` (`loaders.ts` lines 6–12):
beneficiaries of each requested account, `[]` for absent accounts. -/
def beneficiaryBatchFn (db : Database) (accountIds : List Key) :
    List (List BeneficiaryInfo) :=
  accountIds.map (fun id =>
    ((db.accounts.find? (fun acc => acc.id == id)).map (·.beneficiaries)).getD [])

/-- The batch function of `createTransactionLoader` (`loaders.ts` lines 15–21). -/
def transactionBatchFn (db : Database) (accountIds : List Key) :
    List (List Transaction) :=
  accountIds.map (fun id =>
    ((db.accounts.find? (fun acc => acc.id == id)).map (·.withdrawalHistory)).getD [])

/-! ## Change Bus delivery (modelled from the spec) and subscription
resolvers -/

/-- Modelled from the spec: Change Bus fan-out (§4.3) — the `PubSub` of
`graphql-subscriptions` is an external library, missing from the repository's
source.  A subscriber registered for a topic list receives, in publish order,
every event whose topic is in its list while it is active. -/
def delivered (topics : List String) (published : List Event) : List Event :=
  published.filter (fun e => topics.contains e.topic)

/-- The `Subscription.withdrawalStatusChanged.subscribe` resolver
(`schema.ts` lines 506–509): it returns
`pubsub.asyncIterator([WITHDRAWAL_STATUS_CHANGED])` whatever `accountId` is. -/
def withdrawalStatusChangedTopics (accountId : Key) : List String :=
  [WITHDRAWAL_STATUS_CHANGED]

/-- The `Subscription.accountBalanceChanged.subscribe` resolver
(`schema.ts` lines 515–518). -/
def accountBalanceChangedTopics (accountId : Key) : List String :=
  [ACCOUNT_BALANCE_CHANGED]

/-! ## Helper lemmas for the claims -/

/-- `loadMany` on a loader whose cache is empty appends exactly the requested
keys (order and duplicates preserved) and hands out positional handles. -/
theorem loadMany_empty_cache {K V : Type} [BEq K] (ks : List K)
    (s : Loader.State K V) (hc : s.cache = []) :
    (Loader.loadMany s ks).2 =
      { cache := s.cache, pending := s.pending ++ ks, calls := s.calls } ∧
    (Loader.loadMany s ks).1 =
      (List.range ks.length).map (fun i => Loader.Handle.pendingAt (s.pending.length + i)) := by
  induction ks generalizing s with
  | nil => simp [Loader.loadMany]
  | cons k rest ih =>
    have hload : Loader.load s k =
        (Loader.Handle.pendingAt s.pending.length, { s with pending := s.pending ++ [k] }) := by
      rw [Loader.load, hc]
      rfl
    have ih' := ih { s with pending := s.pending ++ [k] } hc
    constructor
    · rw [Loader.loadMany]
      simp only [hload, ih'.1, List.append_assoc, List.singleton_append]
    · rw [Loader.loadMany]
      simp only [hload, ih'.2]
      rw [List.length_cons, List.range_succ_eq_map, List.map_cons, List.map_map]
      congr 1
      apply List.map_congr_left
      intro i hi
      simp only [Function.comp_apply, List.length_append, List.length_singleton,
        Loader.Handle.pendingAt.injEq]
      omega

/-- Positional lookup over the whole of a list is the list itself. -/
theorem range_map_get? {V : Type} (l : List V) :
    (List.range l.length).map (fun i => l.get? i) = l.map some := by
  induction l with
  | nil => simp
  | cons v t ih =>
    rw [List.length_cons, List.range_succ_eq_map, List.map_cons, List.map_map]
    simp only [List.get?_cons_zero]
    congr 1

/-! ## Claims about the Batch Loader -/

/-- C1: for every non-empty key sequence `[k1..kn]` submitted to a fresh Batch
Loader within one flush window (via `loadMany`), the batch-fetch function is
invoked exactly once, with exactly `[k1..kn]` in the original order (duplicates
at their original positions), and the i-th handle resolves to the i-th element
of the returned sequence. -/
theorem claim_C1_batch_single_fetch_in_order {K V : Type} [BEq K]
    (ks : List K) (batchFn : List K → List V)
    (hne : ks ≠ []) (hlen : (batchFn ks).length = ks.length) :
    (Loader.flush batchFn
        (Loader.loadMany (Loader.fresh (K := K) (V := V)) ks).2).2.calls = [ks] ∧
    (Loader.loadMany (Loader.fresh (K := K) (V := V)) ks).1.map
        (Loader.resolve (Loader.flush batchFn
          (Loader.loadMany (Loader.fresh (K := K) (V := V)) ks).2).1)
      = (batchFn ks).map some := by
  obtain ⟨hstate, hhandles⟩ :=
    loadMany_empty_cache (V := V) ks (Loader.fresh (K := K) (V := V)) rfl
  have hempty : ks.isEmpty = false := by
    cases ks
    · exact absurd rfl hne
    · rfl
  constructor
  · rw [hstate]
    simp only [Loader.flush, Loader.fresh, List.nil_append, hempty,
      Bool.false_eq_true, if_false]
  · rw [hstate, hhandles]
    simp only [Loader.flush, Loader.fresh, List.nil_append, hempty,
      Bool.false_eq_true, if_false, List.map_map, List.length_nil]
    rw [← hlen, ← range_map_get? (batchFn ks)]
    apply List.map_congr_left
    intro i _
    simp [Loader.resolve]

/-- C1 witness: the spec's scenario — keys `["1","2","1"]` against the account
batch function: one fetch call with exactly those keys, results positional. -/
theorem claim_C1_witness :
    ([[49], [50], [49]] : List Key) ≠ [] ∧
    (accountBatchFn dbInit [[49], [50], [49]]).length
        = ([[49], [50], [49]] : List Key).length ∧
    ((Loader.flush (accountBatchFn dbInit)
        (Loader.loadMany (Loader.fresh (K := Key) (V := Option PensionAccount))
          [[49], [50], [49]]).2).2.calls = [[[49], [50], [49]]] ∧
      (Loader.loadMany (Loader.fresh (K := Key) (V := Option PensionAccount))
          [[49], [50], [49]]).1.map
        (Loader.resolve (Loader.flush (accountBatchFn dbInit)
          (Loader.loadMany (Loader.fresh (K := Key) (V := Option PensionAccount))
            [[49], [50], [49]]).2).1)
        = (accountBatchFn dbInit [[49], [50], [49]]).map some) ∧
    accountBatchFn dbInit [[49], [50], [49]]
        = [some account1, some account2, some account1] :=
  ⟨by decide, by decide,
   claim_C1_batch_single_fetch_in_order [[49], [50], [49]]
     (accountBatchFn dbInit) (by decide) (by decide),
   by decide⟩

/-- C7: a second `load(k)` on the same loader after the first flush resolved
`k` returns the cached result, leaves the loader unchanged, and no further
batch-fetch invocation happens (a later flush of the empty batch fetches
nothing). -/
theorem claim_C7_second_load_cached {K V : Type} [BEq K] [LawfulBEq K]
    (k : K) (batchFn : List K → List V) (v : V) (hfn : batchFn [k] = [v]) :
    (Loader.load (Loader.flush batchFn
        (Loader.load (Loader.fresh (K := K) (V := V)) k).2).2 k).1
      = Loader.Handle.cached v ∧
    (Loader.load (Loader.flush batchFn
        (Loader.load (Loader.fresh (K := K) (V := V)) k).2).2 k).2
      = (Loader.flush batchFn
          (Loader.load (Loader.fresh (K := K) (V := V)) k).2).2 ∧
    (Loader.flush batchFn
        (Loader.load (Loader.fresh (K := K) (V := V)) k).2).2.calls = [[k]] ∧
    (Loader.flush batchFn (Loader.load (Loader.flush batchFn
        (Loader.load (Loader.fresh (K := K) (V := V)) k).2).2 k).2).2.calls
      = [[k]] := by
  simp [Loader.load, Loader.fresh, Loader.lookup, Loader.flush, hfn]

/-- C7 witness: loading account id `"1"` twice against the account batch
function fetches exactly once and serves the second load from cache. -/
theorem claim_C7_witness :
    accountBatchFn dbInit [[49]] = [some account1] ∧
    ((Loader.load (Loader.flush (accountBatchFn dbInit)
        (Loader.load (Loader.fresh (K := Key) (V := Option PensionAccount))
          [49]).2).2 [49]).1 = Loader.Handle.cached (some account1) ∧
      (Loader.load (Loader.flush (accountBatchFn dbInit)
          (Loader.load (Loader.fresh (K := Key) (V := Option PensionAccount))
            [49]).2).2 [49]).2
        = (Loader.flush (accountBatchFn dbInit)
            (Loader.load (Loader.fresh (K := Key) (V := Option PensionAccount))
              [49]).2).2 ∧
      (Loader.flush (accountBatchFn dbInit)
          (Loader.load (Loader.fresh (K := Key) (V := Option PensionAccount))
            [49]).2).2.calls = [[[49]]] ∧
      (Loader.flush (accountBatchFn dbInit)
          (Loader.load (Loader.flush (accountBatchFn dbInit)
            (Loader.load (Loader.fresh (K := Key) (V := Option PensionAccount))
              [49]).2).2 [49]).2).2.calls = [[[49]]]) :=
  ⟨by decide,
   claim_C7_second_load_cached [49] (accountBatchFn dbInit) (some account1)
     (by decide)⟩

/-! ## Claims about the Cursor Pager -/

/-- C2 counterexample: the claim quantifies over every non-negative `first`,
but at `first = 0` (JS falsy) the resolver skips the `first` step entirely:
on the shipped store (N = 2 > 0) it returns all 2 edges with
`hasNextPage = false`, where the claim demands 0 edges and
`hasNextPage = true`. -/
theorem claim_C2_counterexample :
    0 < dbInit.accounts.length ∧
    (paginatedAccounts dbInit { first := some 0 }).edges.length = 2 ∧
    (paginatedAccounts dbInit { first := some 0 }).pageInfo.hasNextPage
      = false := by
  decide

/-- C2 (amended to positive `first`): for every collection and every `first`
`f ≥ 1` (and no other pagination arguments), if `f < N` the page has exactly
`f` edges and `hasNextPage = true`; if `f ≥ N` all `N` edges are returned (in
order) and `hasNextPage = false`. -/
theorem claim_C2_first_pagination_exactness (db : Database) (f : Nat)
    (hf : 1 ≤ f) :
    (f < db.accounts.length →
        (paginatedAccounts db { first := some f }).edges.length = f ∧
        (paginatedAccounts db { first := some f }).pageInfo.hasNextPage
          = true) ∧
    (db.accounts.length ≤ f →
        (paginatedAccounts db { first := some f }).edges.map (·.node)
          = db.accounts ∧
        (paginatedAccounts db { first := some f }).pageInfo.hasNextPage
          = false) := by
  have hf0 : f ≠ 0 := by omega
  constructor
  · intro hlt
    simp [paginatedAccounts, truthyStr, hf0, List.length_take, hlt]
    omega
  · intro hle
    simp [paginatedAccounts, truthyStr, hf0, List.take_of_length_le hle,
      not_lt.mpr hle, List.map_map, Function.comp]
    have hid : ((fun x : Edge => x.node) ∘ fun a : PensionAccount =>
        ({ cursor := cursorOf a.id, node := a } : Edge)) = id := rfl
    rw [hid, List.map_id]

/-- C2 witness: `first = 1` on the shipped two-account store. -/
theorem claim_C2_witness :
    1 ≤ 1 ∧
    ((1 < dbInit.accounts.length →
        (paginatedAccounts dbInit { first := some 1 }).edges.length = 1 ∧
        (paginatedAccounts dbInit { first := some 1 }).pageInfo.hasNextPage
          = true) ∧
     (dbInit.accounts.length ≤ 1 →
        (paginatedAccounts dbInit { first := some 1 }).edges.map (·.node)
          = dbInit.accounts ∧
        (paginatedAccounts dbInit { first := some 1 }).pageInfo.hasNextPage
          = false)) :=
  ⟨by decide, claim_C2_first_pagination_exactness dbInit 1 (by decide)⟩

/-- C3: an `after` cursor that matches no element of the collection leaves the
collection unfiltered — the `after` step drops nothing, pagination proceeds on
the unmodified collection (same edges and totals as with no `after` at all),
and no error is raised. -/
theorem claim_C3_unmatched_after_cursor (db : Database) (args : PageArgs)
    (c : String) (hc : args.after = some c) (hne : c ≠ "")
    (hmiss : ∀ a ∈ db.accounts, cursorOf a.id ≠ c) :
    afterSlice db.accounts c = db.accounts ∧
    (paginatedAccounts db args).edges
      = (paginatedAccounts db { args with after := none }).edges ∧
    (paginatedAccounts db args).pageInfo.hasNextPage
      = (paginatedAccounts db { args with after := none }).pageInfo.hasNextPage ∧
    (paginatedAccounts db args).totalCount
      = (paginatedAccounts db { args with after := none }).totalCount := by
  have hfind : db.accounts.findIdx? (fun a => cursorOf a.id == c) = none := by
    rw [List.findIdx?_eq_none_iff]
    intro a ha
    simpa using hmiss a ha
  have hslice : afterSlice db.accounts c = db.accounts := by
    rw [afterSlice, hfind]
  refine ⟨hslice, ?_, ?_, ?_⟩ <;>
    simp [paginatedAccounts, hc, truthyStr, hne, hslice]

/-- C3 witness: the cursor `"zzz"` matches neither shipped account. -/
theorem claim_C3_witness :
    ({ first := some 10, after := some "zzz" } : PageArgs).after = some "zzz" ∧
    ("zzz" : String) ≠ "" ∧
    (∀ a ∈ dbInit.accounts, cursorOf a.id ≠ "zzz") ∧
    (afterSlice dbInit.accounts "zzz" = dbInit.accounts ∧
      (paginatedAccounts dbInit { first := some 10, after := some "zzz" }).edges
        = (paginatedAccounts dbInit
            { ({ first := some 10, after := some "zzz" } : PageArgs) with
                after := none }).edges ∧
      (paginatedAccounts dbInit
          { first := some 10, after := some "zzz" }).pageInfo.hasNextPage
        = (paginatedAccounts dbInit
            { ({ first := some 10, after := some "zzz" } : PageArgs) with
                after := none }).pageInfo.hasNextPage ∧
      (paginatedAccounts dbInit
          { first := some 10, after := some "zzz" }).totalCount
        = (paginatedAccounts dbInit
            { ({ first := some 10, after := some "zzz" } : PageArgs) with
                after := none }).totalCount) :=
  ⟨rfl, by decide, by decide,
   claim_C3_unmatched_after_cursor dbInit { first := some 10, after := some "zzz" }
     "zzz" rfl (by decide) (by decide)⟩

/-- The spec's example collection `[A,B,C,D,E]` with keys `a..e`
(bytes 97..101), served as the pager's backing store. -/
def dbABCDE : Database :=
  { accounts := [97, 98, 99, 100, 101].map (fun b =>
      { id := [b], accountNumber := "X", balance := 0, ownerName := "o",
        status := .ACTIVE, eligibleForWithdrawal := true,
        withdrawalHistory := [], beneficiaries := [] })
    rules := dbInit.rules }

/-- C4: on `[A,B,C,D,E]` (keys a..e), `paginate({first: 2})` returns edges
`[a,b]` with `hasNextPage = true`, and
`paginate({first: 2, after: encode(b)})` returns edges `[c,d]` with
`hasNextPage = true` and `hasPreviousPage = true`. -/
theorem claim_C4_example_scenario :
    (paginatedAccounts dbABCDE { first := some 2 }).edges.map (·.node.id)
      = [[97], [98]] ∧
    (paginatedAccounts dbABCDE { first := some 2 }).pageInfo.hasNextPage
      = true ∧
    (paginatedAccounts dbABCDE
        { first := some 2, after := some (cursorOf [98]) }).edges.map
          (·.node.id) = [[99], [100]] ∧
    (paginatedAccounts dbABCDE
        { first := some 2, after := some (cursorOf [98]) }).pageInfo.hasNextPage
      = true ∧
    (paginatedAccounts dbABCDE
        { first := some 2,
          after := some (cursorOf [98]) }).pageInfo.hasPreviousPage = true := by
  decide

/-- C5: the cursor encoding used by pagination round-trips
(`decode(encode(k)) = k`) and never collides on distinct keys. -/
theorem claim_C5_cursor_roundtrip_injective (k1 k2 : Key)
    (h1 : ValidBytes k1) (h2 : ValidBytes k2) :
    base64Decode (cursorOf k1) = some k1 ∧
    (k1 ≠ k2 → cursorOf k1 ≠ cursorOf k2) :=
  ⟨base64Decode_base64Encode k1 h1,
   fun hne he => hne (base64Encode_injective k1 k2 h1 h2 he)⟩

/-- C5 witness: the two shipped account ids. -/
theorem claim_C5_witness :
    ValidBytes [49] ∧ ValidBytes [50] ∧
    (base64Decode (cursorOf [49]) = some [49] ∧
      (([49] : Key) ≠ [50] → cursorOf [49] ≠ cursorOf [50])) :=
  ⟨by decide, by decide,
   claim_C5_cursor_roundtrip_injective [49] [50] (by decide) (by decide)⟩

/-- C8 counterexample: the claim demands `hasPreviousPage = false` for an
empty collection regardless of arguments, but supplying any truthy `after`
(here `"x"`) makes the resolver set `hasPreviousPage = true` even though
nothing was skipped. -/
theorem claim_C8_counterexample :
    (paginatedAccounts { accounts := [], rules := dbInit.rules }
        { after := some "x" }).pageInfo.hasPreviousPage = true ∧
    (paginatedAccounts { accounts := [], rules := dbInit.rules }
        { after := some "x" }).edges = [] := by
  decide

/-- C8 (amended): paginating an empty collection yields `edges = []`,
`hasNextPage = false`, absent start/end cursors and `totalCount = 0` for every
argument combination; `hasPreviousPage = false` holds provided neither a
truthy `after` nor a truthy `last` is supplied (either of those forces
`hasPreviousPage = true`). -/
theorem claim_C8_empty_collection (db : Database) (args : PageArgs)
    (h : db.accounts = []) :
    (paginatedAccounts db args).edges = [] ∧
    (paginatedAccounts db args).pageInfo.hasNextPage = false ∧
    (paginatedAccounts db args).pageInfo.startCursor = none ∧
    (paginatedAccounts db args).pageInfo.endCursor = none ∧
    (paginatedAccounts db args).totalCount = 0 ∧
    (truthyStr args.after = false → args.last.getD 0 = 0 →
      (paginatedAccounts db args).pageInfo.hasPreviousPage = false) := by
  refine ⟨?_, ?_, ?_, ?_, ?_, fun h1 h2 => ?_⟩
  · simp [paginatedAccounts, h, afterSlice, beforeSlice, lastSlice, truthyStr]
  · simp [paginatedAccounts, h, afterSlice, beforeSlice, lastSlice, truthyStr]
  · simp [paginatedAccounts, h, afterSlice, beforeSlice, lastSlice, truthyStr]
  · simp [paginatedAccounts, h, afterSlice, beforeSlice, lastSlice, truthyStr]
  · simp [paginatedAccounts, h]
  · simp [paginatedAccounts, h1, h2]

/-- C8 witness: the empty store with no arguments at all. -/
theorem claim_C8_witness :
    ({ accounts := [], rules := dbInit.rules } : Database).accounts = [] ∧
    ((paginatedAccounts { accounts := [], rules := dbInit.rules } {}).edges
        = [] ∧
      (paginatedAccounts { accounts := [], rules := dbInit.rules }
          {}).pageInfo.hasNextPage = false ∧
      (paginatedAccounts { accounts := [], rules := dbInit.rules }
          {}).pageInfo.startCursor = none ∧
      (paginatedAccounts { accounts := [], rules := dbInit.rules }
          {}).pageInfo.endCursor = none ∧
      (paginatedAccounts { accounts := [], rules := dbInit.rules }
          {}).totalCount = 0 ∧
      (truthyStr ({} : PageArgs).after = false →
        ({} : PageArgs).last.getD 0 = 0 →
        (paginatedAccounts { accounts := [], rules := dbInit.rules }
            {}).pageInfo.hasPreviousPage = false)) :=
  ⟨rfl, claim_C8_empty_collection { accounts := [], rules := dbInit.rules }
    {} rfl⟩

/-! ## Claims about the withdrawal mutation -/

/-- The four validation preconditions of `requestWithdrawal`, exactly as
checked in order by the source; `ValidationFails` holds when at least one of
them rejects the call. -/
def ValidationFails (db : Database) (accountId : Key) (amount : ℚ) : Prop :=
  match db.accounts.find? (fun a => a.id == accountId) with
  | none => True
  | some account =>
    account.eligibleForWithdrawal = false ∨ amount > account.balance ∨
    amount > account.balance * (db.rules.maximumWithdrawalPercentage / 100)

/-- C6: a `requestWithdrawal` call that fails any validation precondition
returns `success = false` with a non-empty human-readable message, publishes
no event, and leaves the store (balances, histories) unchanged. -/
theorem claim_C6_validation_failure_no_effect (db : Database)
    (accountId : Key) (amount : ℚ) (freshId date : String)
    (h : ValidationFails db accountId amount) :
    (requestWithdrawal db accountId amount freshId date).result.success
      = false ∧
    0 < (requestWithdrawal db accountId amount freshId
        date).result.message.length ∧
    (requestWithdrawal db accountId amount freshId date).events = [] ∧
    (requestWithdrawal db accountId amount freshId date).db = db := by
  rcases hfind : db.accounts.find? (fun a => a.id == accountId) with _ | account
  · simp only [requestWithdrawal, hfind]
    refine ⟨by trivial, ?_, by trivial, by trivial⟩
    show (0 : Nat) < ("账户未找到" : String).length
    decide
  · simp only [ValidationFails, hfind] at h
    simp only [requestWithdrawal, hfind]
    split_ifs with h1 h2 h3
    · refine ⟨by trivial, ?_, by trivial, by trivial⟩
      show (0 : Nat) < ("账户不符合提取条件" : String).length
      decide
    · refine ⟨by trivial, ?_, by trivial, by trivial⟩
      show (0 : Nat) < ("余额不足" : String).length
      decide
    · refine ⟨by trivial, ?_, by trivial, by trivial⟩
      have hA : (0 : Nat) < ("提取金额不能超过账户余额的" : String).length := by
        decide
      simp only [String.length_append]
      omega
    · exfalso
      rcases h with h | h | h
      · exact h1 (by simp [h])
      · exact h2 h
      · exact h3 h

/-- C6 witness: account id `"3"` does not exist in the shipped store. -/
theorem claim_C6_witness :
    ValidationFails dbInit [51] 100 ∧
    ((requestWithdrawal dbInit [51] 100 "TXN1" "d").result.success = false ∧
      0 < (requestWithdrawal dbInit [51] 100 "TXN1"
          "d").result.message.length ∧
      (requestWithdrawal dbInit [51] 100 "TXN1" "d").events = [] ∧
      (requestWithdrawal dbInit [51] 100 "TXN1" "d").db = dbInit) :=
  ⟨trivial, claim_C6_validation_failure_no_effect dbInit [51] 100 "TXN1" "d"
    trivial⟩

/-- `find?` after `updateFirst` returns the updated account, provided the
update does not change the id. -/
theorem find?_updateFirst (l : List PensionAccount) (aid : Key)
    (f : PensionAccount → PensionAccount) (acc : PensionAccount)
    (hfind : l.find? (fun a => a.id == aid) = some acc)
    (hid : (f acc).id = acc.id) :
    (updateFirst l aid f).find? (fun a => a.id == aid) = some (f acc) := by
  induction l with
  | nil => simp [List.find?] at hfind
  | cons a rest ih =>
    by_cases ha : (a.id == aid) = true
    · rw [List.find?_cons_of_pos (p := fun x => x.id == aid) rest ha] at hfind
      cases hfind
      rw [updateFirst, if_pos ha]
      apply List.find?_cons_of_pos
      rw [hid]
      exact ha
    · rw [List.find?_cons_of_neg (p := fun x => x.id == aid) rest ha] at hfind
      rw [updateFirst, if_neg ha]
      rw [List.find?_cons_of_neg (p := fun x => x.id == aid)
        (updateFirst rest aid f) ha]
      exact ih hfind

/-- C9: on any reachable store, an existing account with
`eligibleForWithdrawal = true` accepts every `amount ≤ 0`: the mutation
succeeds, appends a `PENDING` transaction for that amount, and changes the
balance by `-amount` — so a strictly negative amount increases the balance. -/
theorem claim_C9_nonpositive_amount_accepted (db : Database)
    (accountId : Key) (amount : ℚ) (freshId date : String)
    (account : PensionAccount)
    (hreach : Reachable db)
    (hfind : db.accounts.find? (fun a => a.id == accountId) = some account)
    (helig : account.eligibleForWithdrawal = true)
    (hamt : amount ≤ 0) :
    (requestWithdrawal db accountId amount freshId date).result.success
      = true ∧
    (requestWithdrawal db accountId amount freshId date).result.transaction
      = some { id := freshId, amount := amount, date := date,
               status := .PENDING } ∧
    (requestWithdrawal db accountId amount freshId date).db.accounts.find?
        (fun a => a.id == accountId)
      = some { account with
          withdrawalHistory := account.withdrawalHistory ++
            [{ id := freshId, amount := amount, date := date,
               status := .PENDING }]
          balance := account.balance - amount } ∧
    (amount < 0 → account.balance < account.balance - amount) := by
  have hgood := reachable_goodStore db hreach
  have hbal : 0 ≤ account.balance :=
    hgood.1 account (List.mem_of_find?_eq_some hfind)
  have hpct : 0 ≤ db.rules.maximumWithdrawalPercentage := hgood.2
  have hmax : 0 ≤ account.balance *
      (db.rules.maximumWithdrawalPercentage / 100) :=
    mul_nonneg hbal (div_nonneg hpct (by norm_num))
  have h1 : ¬((!account.eligibleForWithdrawal) = true) := by simp [helig]
  have h2 : ¬(amount > account.balance) := not_lt.mpr (le_trans hamt hbal)
  have h3 : ¬(amount > account.balance *
      (db.rules.maximumWithdrawalPercentage / 100)) :=
    not_lt.mpr (le_trans hamt hmax)
  simp only [requestWithdrawal, hfind, if_neg h1, if_neg h2, if_neg h3]
  refine ⟨by trivial, by trivial, ?_, fun hneg => by linarith⟩
  exact find?_updateFirst db.accounts accountId _ account hfind rfl

/-- C9 witness: withdrawing `-100` from the shipped eligible account `"1"`. -/
theorem claim_C9_witness :
    Reachable dbInit ∧
    dbInit.accounts.find? (fun a => a.id == ([49] : Key)) = some account1 ∧
    account1.eligibleForWithdrawal = true ∧
    (-100 : ℚ) ≤ 0 ∧
    ((requestWithdrawal dbInit [49] (-100) "TXN1" "d").result.success = true ∧
      (requestWithdrawal dbInit [49] (-100) "TXN1" "d").result.transaction
        = some { id := "TXN1", amount := -100, date := "d",
                 status := .PENDING } ∧
      (requestWithdrawal dbInit [49] (-100) "TXN1"
          "d").db.accounts.find? (fun a => a.id == ([49] : Key))
        = some { account1 with
            withdrawalHistory := account1.withdrawalHistory ++
              [{ id := "TXN1", amount := -100, date := "d",
                 status := .PENDING }]
            balance := account1.balance - (-100) } ∧
      ((-100 : ℚ) < 0 → account1.balance < account1.balance - (-100))) :=
  ⟨Reachable.init, rfl, rfl, by decide,
   claim_C9_nonpositive_amount_accepted dbInit [49] (-100) "TXN1" "d"
     account1 Reachable.init rfl rfl (by decide)⟩

/-! ## Claims about the subscriptions -/

/-- A concrete successful withdrawal on the shipped store (account `"1"`,
amount 100, within the 25% cap of the 50000 balance). -/
theorem requestWithdrawal_dbInit_success :
    (requestWithdrawal dbInit [49] 100 "TXN1" "d").result.success = true := by
  have hfind : dbInit.accounts.find? (fun a => a.id == ([49] : Key))
      = some account1 := by rfl
  simp only [requestWithdrawal, hfind]
  norm_num [account1, dbInit]

/-- A successful `requestWithdrawal` publishes exactly one
`WITHDRAWAL_STATUS_CHANGED` event followed by one `ACCOUNT_BALANCE_CHANGED`
event, both tagged with the mutated account's id. -/
theorem requestWithdrawal_success_events (db : Database) (accountId : Key)
    (amount : ℚ) (freshId date : String)
    (hs : (requestWithdrawal db accountId amount freshId date).result.success
      = true) :
    ∃ account', (requestWithdrawal db accountId amount freshId date).events =
      [⟨WITHDRAWAL_STATUS_CHANGED,
        .withdrawalStatus (Transaction.mk freshId amount date .PENDING)
          accountId⟩,
       ⟨ACCOUNT_BALANCE_CHANGED, .balanceChanged account' accountId⟩] := by
  rcases hfind : db.accounts.find? (fun a => a.id == accountId) with _ | account
  · simp only [requestWithdrawal, hfind] at hs
    simp at hs
  · simp only [requestWithdrawal, hfind] at hs ⊢
    split_ifs at hs ⊢ with h1 h2 h3
    exact ⟨_, rfl⟩

/-- C10: the `accountId` argument of the subscription resolvers has no effect
on delivery — two subscribers created with different `accountId`s receive
identical event streams — and after any successful withdrawal on any account
every withdrawal-status subscriber (whatever account it asked for) receives
the published event. -/
theorem claim_C10_subscription_ignores_accountId (a1 a2 : Key)
    (log : List Event) (db : Database) (accountId : Key) (amount : ℚ)
    (freshId date : String)
    (hs : (requestWithdrawal db accountId amount freshId date).result.success
      = true) :
    delivered (withdrawalStatusChangedTopics a1) log
      = delivered (withdrawalStatusChangedTopics a2) log ∧
    delivered (accountBalanceChangedTopics a1) log
      = delivered (accountBalanceChangedTopics a2) log ∧
    delivered (withdrawalStatusChangedTopics a1)
        (requestWithdrawal db accountId amount freshId date).events
      = [⟨WITHDRAWAL_STATUS_CHANGED,
          .withdrawalStatus (Transaction.mk freshId amount date .PENDING)
            accountId⟩] := by
  refine ⟨rfl, rfl, ?_⟩
  obtain ⟨account', hev⟩ :=
    requestWithdrawal_success_events db accountId amount freshId date hs
  rw [hev]
  have hW : ([WITHDRAWAL_STATUS_CHANGED].contains WITHDRAWAL_STATUS_CHANGED)
      = true := by decide
  have hB : ([WITHDRAWAL_STATUS_CHANGED].contains ACCOUNT_BALANCE_CHANGED)
      = false := by decide
  have hne : ACCOUNT_BALANCE_CHANGED ≠ WITHDRAWAL_STATUS_CHANGED := by decide
  simp [delivered, withdrawalStatusChangedTopics, List.filter, hW, hB, hne]

/-- C10 witness: subscribers asking for accounts `"2"` and `"3"` both receive
the event of a successful withdrawal on account `"1"`. -/
theorem claim_C10_witness :
    (requestWithdrawal dbInit [49] 100 "TXN1" "d").result.success = true ∧
    (delivered (withdrawalStatusChangedTopics [50]) []
        = delivered (withdrawalStatusChangedTopics [51]) [] ∧
      delivered (accountBalanceChangedTopics [50]) []
        = delivered (accountBalanceChangedTopics [51]) [] ∧
      delivered (withdrawalStatusChangedTopics [50])
          (requestWithdrawal dbInit [49] 100 "TXN1" "d").events
        = [⟨WITHDRAWAL_STATUS_CHANGED,
            .withdrawalStatus (Transaction.mk "TXN1" 100 "d" .PENDING)
              [49]⟩]) :=
  ⟨requestWithdrawal_dbInit_success,
   claim_C10_subscription_ignores_accountId [50] [51] [] dbInit [49] 100
     "TXN1" "d" requestWithdrawal_dbInit_success⟩
